import Mathlib

/-!
Verification of the go-process-logger repository (`logger.go`).

Shallow embedding: the pure computations of the source (path construction,
part-number probing, rotation-path derivation, encoding, level names) are
translated into executable Lean functions; the stateful parts
(`getLogFile`, `LogToProcess`, the `sync.Once` default-instance guard) are
translated into explicit state-passing functions over a modelled world
(a finite path→size filesystem plus a registry association list).
Go `int64`/`int` values are modelled as `Int`/`Nat`; Go runtime panics are
modelled as `Option.none`; Go `error` returns as `Except String`.
-/

namespace GoLogger

/-- The level-name array of `LogLevel.String` (logger.go line 26):
`[...]string{"DEBUG", "INFO", "WARN", "ERROR", "FATAL"}`. -/
def levelNames : List String := ["DEBUG", "INFO", "WARN", "ERROR", "FATAL"]

/-- `LogLevel.String` (logger.go lines 25–27): a Go fixed-size-array index
`[...]string{...}[l]`, which panics at runtime when `l` is outside
`0 ≤ l < 5`. The panic is modelled as `none`; a defined level returns
`some` of its name. -/
def LogLevelString (l : Int) : Option String :=
  if l < 0 then none else levelNames.get? l.toNat

/-- Go `strings.HasSuffix`, over the character list of the string. -/
def strHasSuffix (s suffix : String) : Bool :=
  suffix.data.isSuffixOf s.data

/-- Go `strings.TrimSuffix s suffix` — drops one trailing occurrence of
`suffix` when present, otherwise returns `s` unchanged. -/
def goTrimSuffix (s suffix : String) : String :=
  if strHasSuffix s suffix then
    String.mk (s.data.take (s.data.length - suffix.data.length))
  else s

/-- Go `strings.HasPrefix`, over the character list of the string. -/
def strHasPre (s pre : String) : Bool :=
  pre.data.isPrefixOf s.data

/-- Go `strings.TrimPrefix`-style left trim — drops one leading occurrence
of `pre` when present, otherwise returns `s` unchanged. -/
def goTrimLeft (s pre : String) : String :=
  if strHasPre s pre then String.mk (s.data.drop pre.data.length) else s

/-- Go `filepath.Join a b` on already-clean components: empty components
are dropped, non-empty ones joined with `/`. -/
def goJoin (a b : String) : String :=
  if a = "" then b else if b = "" then a else a ++ "/" ++ b

/-- The base-path computation of `getLogFile` (logger.go lines 193–209):
`processLogDir = Join(baseLogDir, processDir)`; with an empty category the
base path is `Join(processLogDir, currentDate)`, otherwise
`Join(processLogDir, category + "_" + currentDate)` (the `%s_%s` Sprintf). -/
def basePathFor (baseLogDir processDir category currentDate : String) : String :=
  let processLogDir := goJoin baseLogDir processDir
  if category = "" then goJoin processLogDir currentDate
  else goJoin processLogDir (category ++ "_" ++ currentDate)

/-- The rotated-path computation of `rotateLogFile` (logger.go lines
154–155): `basePath := strings.TrimSuffix(info.file.Name(), ".log")`
then `fmt.Sprintf("%s.%d.log", basePath, info.partNum)`. Note the source
strips only the trailing `.log` from the *current* file name — it does not
re-derive the routing key's base path. -/
def rotatePath (currentName : String) (newPartNum : Nat) : String :=
  goTrimSuffix currentName ".log" ++ "." ++ toString newPartNum ++ ".log"

/-- A modelled filesystem: association list from path to file size
(in bytes). `fsStat` is `os.Stat` restricted to existence and size —
`none` models `os.IsNotExist`. -/
def fsStat (files : List (String × Int)) (p : String) : Option Int :=
  match files with
  | [] => none
  | (q, sz) :: rest => if q = p then some sz else fsStat rest p

/-- Insert-or-overwrite a path's size in the modelled filesystem. -/
def setFile (files : List (String × Int)) (p : String) (sz : Int) :
    List (String × Int) :=
  match files with
  | [] => [(p, sz)]
  | (q, s) :: rest => if q = p then (p, sz) :: rest else (q, s) :: setFile rest p sz

/-- Loop body of `findNextPartNumber` (logger.go lines 126–143).
The Go loop is unbounded (`for { ... }`); it is given explicit fuel here,
which only matters if consecutively numbered probe paths exist beyond the
fuel. `testPath = Sprintf("%s.%d", basePath, partNum)` — note `basePath`
is passed as the full name *including* `.log`, so the probe inspects
`<name>.log.N` paths. -/
def findNextPartNumberAux (fs : String → Option Int) (maxFileSize : Int)
    (basePath : String) : Nat → Nat → Nat
  | 0, partNum => partNum
  | fuel + 1, partNum =>
    let testPath := basePath ++ "." ++ toString partNum
    match fs testPath with
    | some _ => findNextPartNumberAux fs maxFileSize basePath fuel (partNum + 1)
    | none =>
      if partNum > 1 then
        let prevPath := basePath ++ "." ++ toString (partNum - 1)
        match fs prevPath with
        | some sz => if sz < maxFileSize then partNum - 1 else partNum
        | none => partNum
      else partNum

/-- `findNextPartNumber` (logger.go lines 126–143), starting at part 1. -/
def findNextPartNumber (fs : String → Option Int) (maxFileSize : Int)
    (basePath : String) : Nat :=
  findNextPartNumberAux fs maxFileSize basePath 1000 1

/-- The miss-path filename/part selection of `getLogFile` (logger.go lines
211–223): with rotation enabled, probe via
`findNextPartNumber(basePath + ".log")`; part 1 gets `basePath + ".log"`,
parts ≥ 2 get `Sprintf("%s.%d.log", basePath, partNum)`; with rotation
disabled, always `basePath + ".log"`. Returns (filename, partNum). -/
def getLogFileMissFilename (fs : String → Option Int) (maxFileSize : Int)
    (basePath : String) : String × Nat :=
  if maxFileSize > 0 then
    let partNum := findNextPartNumber fs maxFileSize (basePath ++ ".log")
    if partNum = 1 then (basePath ++ ".log", 1)
    else (basePath ++ "." ++ toString partNum ++ ".log", partNum)
  else (basePath ++ ".log", 1)

/-- C9: `LogLevel.String` is total exactly on the five defined levels:
for `0 ≤ l ≤ 4` it returns the corresponding name from the array
(DEBUG/INFO/WARN/ERROR/FATAL), and for any `LogLevel` value outside that
range the array index panics (modelled: returns `none`) instead of
returning a fallback string. -/
theorem logLevelString_defined_iff_in_range :
    (∀ l : Int, 0 ≤ l → l ≤ 4 →
      LogLevelString l = some (levelNames.getD l.toNat "")) ∧
    (∀ l : Int, l < 0 ∨ 4 < l → LogLevelString l = none) ∧
    LogLevelString 0 = some "DEBUG" ∧ LogLevelString 1 = some "INFO" ∧
    LogLevelString 2 = some "WARN" ∧ LogLevelString 3 = some "ERROR" ∧
    LogLevelString 4 = some "FATAL" := by
  refine ⟨?_, ?_, by decide, by decide, by decide, by decide, by decide⟩
  · intro l h0 h4
    have : l = 0 ∨ l = 1 ∨ l = 2 ∨ l = 3 ∨ l = 4 := by omega
    rcases this with h | h | h | h | h <;> subst h <;> decide
  · intro l h
    rcases h with h | h
    · simp [LogLevelString, h]
    · have hn : l.toNat ≥ 5 := by omega
      have hlt : ¬ l < 0 := by omega
      simp only [LogLevelString, if_neg hlt]
      exact List.get?_eq_none.mpr (by simpa [levelNames] using hn)

/-- Witness for C9 at levels 2 (in range) and 7 (out of range). -/
theorem logLevelString_defined_iff_in_range_witness :
    LogLevelString 2 = some (levelNames.getD (Int.toNat 2) "") ∧
    LogLevelString 7 = none :=
  ⟨logLevelString_defined_iff_in_range.1 2 (by decide) (by decide),
   logLevelString_defined_iff_in_range.2.1 7 (Or.inr (by decide))⟩

/-- C2 (counter-evidence, code bug): evaluating `rotateLogFile`'s path rule.
The first rotation from part 1 does yield `.2.log`, but rotating again
yields `.2.3.log` — `TrimSuffix` strips only the trailing `.log`, leaving
the previous `.2` part suffix in place, so part 3's file is *not*
`<category>_<date>.3.log` as the spec's layout requires. -/
theorem rotatePath_accumulates_suffixes :
    rotatePath "logs/scheduler/requests_2024-01-15.log" 2 =
      "logs/scheduler/requests_2024-01-15.2.log" ∧
    rotatePath "logs/scheduler/requests_2024-01-15.2.log" 3 =
      "logs/scheduler/requests_2024-01-15.2.3.log" ∧
    rotatePath "logs/scheduler/requests_2024-01-15.2.log" 3 ≠
      "logs/scheduler/requests_2024-01-15.3.log" := by
  refine ⟨by decide, by decide, by decide⟩

/-- C3 (counter-evidence, code bug): the restart probe scans
`<base>.log.N` paths while rotation names parts `<base>.N.log`, so with an
on-disk full part 1 (150 bytes ≥ threshold 100) and an under-threshold
part 2 (`requests_2024-01-15.2.log`, 50 bytes), a fresh `getLogFile` miss
selects part 1's path again instead of resuming part 2. -/
theorem restart_probe_misses_rotated_parts :
    getLogFileMissFilename
      (fsStat [("logs/scheduler/requests_2024-01-15.log", 150),
               ("logs/scheduler/requests_2024-01-15.2.log", 50)])
      100 "logs/scheduler/requests_2024-01-15" =
      ("logs/scheduler/requests_2024-01-15.log", 1) ∧
    ("logs/scheduler/requests_2024-01-15.log" : String) ≠
      "logs/scheduler/requests_2024-01-15.2.log" := by
  refine ⟨by decide, by decide⟩

/-- Non-overlapping left-to-right replace-all over character lists, with
fuel (Go `strings.ReplaceAll`). -/
def replaceAllAux (pat rep : List Char) : Nat → List Char → List Char
  | 0, l => l
  | _, [] => []
  | fuel + 1, c :: rest =>
    if pat.isPrefixOf (c :: rest) then
      rep ++ replaceAllAux pat rep fuel ((c :: rest).drop pat.length)
    else c :: replaceAllAux pat rep fuel rest

/-- Go `strings.ReplaceAll s pat rep` for non-empty `pat` (the source only
calls it with non-empty patterns; an empty pattern is returned unchanged
here). -/
def goReplaceAll (s pat rep : String) : String :=
  if pat = "" then s
  else String.mk (replaceAllAux pat.data rep.data s.data.length s.data)

/-- Go `strings.Join parts " "` (logger.go line 262). -/
def joinSpace : List String → String
  | [] => ""
  | [x] => x
  | x :: xs => x ++ " " ++ joinSpace xs

/-- JSON-array-style comma join, used by the modelled `json.Marshal`. -/
def joinComma : List String → String
  | [] => ""
  | [x] => x
  | x :: xs => x ++ "," ++ joinComma xs

/-- A Go `interface{}` detail value as classified by `formatDetails`
(logger.go lines 254–263) and by `json.Marshal`:
* `str` — a Go `string`;
* `flatMap` — a `map[string]interface{}` whose values are given by their
  `%v` renderings (Go map iteration order is modelled by the list order);
* `other` — any other value: `jsonRepr` is `some` of its `json.Marshal`
  output, or `none` when `json.Marshal` fails on it (func, chan, complex,
  cyclic values …); `verbRepr` is its `fmt.Sprintf("%v", ·)` rendering.
String escaping inside JSON output is not modelled (inputs are assumed
escape-free); no claim inspects escaped content. -/
inductive Detail where
  | str (s : String)
  | flatMap (kvs : List (String × String))
  | other (jsonRepr : Option String) (verbRepr : String)
deriving DecidableEq, Repr

/-- Whether `json.Marshal` succeeds on the `Details` field of a `LogEntry`:
it fails exactly on values modelled by `Detail.other none _`. -/
def detailMarshalable : Option Detail → Bool
  | some (Detail.other none _) => false
  | _ => true

/-- `formatDetails` (logger.go lines 249–279): `nil` gives `""`; a string
passes through; a flat map renders as space-joined `k=v` pairs; any other
value is JSON-marshalled and flattened (strip enclosing braces, `":` to
`=`, `",` to space, drop remaining quotes), falling back to the `%v`
rendering when `json.Marshal` fails. -/
def formatDetails : Option Detail → String
  | none => ""
  | some (Detail.str s) => s
  | some (Detail.flatMap kvs) =>
    joinSpace (kvs.map fun kv => kv.1 ++ "=" ++ kv.2)
  | some (Detail.other jsonRepr verbRepr) =>
    match jsonRepr with
    | none => verbRepr
    | some j =>
      let j1 := goTrimLeft j "\x7b"
      let j2 := goTrimSuffix j1 "\x7d"
      let j3 := goReplaceAll j2 "\":" "="
      let j4 := goReplaceAll j3 "\"," " "
      goReplaceAll j4 "\"" ""

/-- The `json.Marshal` output of a detail value (`none` = marshal error). -/
def detailJsonRepr : Detail → Option String
  | Detail.str s => some ("\"" ++ s ++ "\"")
  | Detail.flatMap kvs =>
    some ("\x7b" ++
      joinComma (kvs.map fun kv => "\"" ++ kv.1 ++ "\":\"" ++ kv.2 ++ "\"") ++
      "\x7d")
  | Detail.other jsonRepr _ => jsonRepr

/-- `json.Marshal(entry)` for a `LogEntry` (logger.go lines 299–313):
fields in struct order; `Details` carries `json:"details,omitempty"`, so a
`nil` detail is omitted rather than emitted as null; marshalling fails
(returns `none`) exactly when the detail value is unmarshalable. -/
def jsonMarshalEntry (timestamp levelName processDir action message : String)
    (d : Option Detail) : Option String :=
  let base := "\x7b\"timestamp\":\"" ++ timestamp ++ "\",\"level\":\"" ++
    levelName ++ "\",\"process\":\"" ++ processDir ++ "\",\"action\":\"" ++
    action ++ "\",\"message\":\"" ++ message ++ "\""
  match d with
  | none => some (base ++ "\x7d")
  | some dv =>
    match detailJsonRepr dv with
    | none => none
    | some dj => some (base ++ ",\"details\":" ++ dj ++ "\x7d")

/-- The two output formats (logger.go lines 32–35). -/
inductive LogFormat where
  | json
  | text
deriving DecidableEq, Repr

/-- The encoding step of `LogToProcess` (logger.go lines 294–332),
including the trailing `'\n'` appended at line 332. In `JSONFormat` a
`json.Marshal` failure makes `LogToProcess` return the error (line 311);
in `TextFormat` the line is a Sprintf that cannot fail, with
`detailsStr = " | " + formatDetails(details)` only when details ≠ nil. -/
def logLineResult (format : LogFormat)
    (timestamp levelName processDir action message : String)
    (details : Option Detail) : Except String String :=
  match format with
  | LogFormat.json =>
    match jsonMarshalEntry timestamp levelName processDir action message details with
    | none => Except.error "failed to marshal log entry"
    | some j => Except.ok (j ++ "\n")
  | LogFormat.text =>
    let detailsStr :=
      match details with
      | none => ""
      | some _ => " | " ++ formatDetails details
    Except.ok ("[" ++ timestamp ++ "] " ++ levelName ++ " | " ++ processDir ++
      " | " ++ action ++ " | " ++ message ++ detailsStr ++ "\n")

/-- `Except.isOk`, kept local and executable. -/
def isOkE {α : Type} : Except String α → Bool
  | Except.ok _ => true
  | Except.error _ => false

/-- C4 (counter-evidence): a detail value on which `json.Marshal` fails
(e.g. a Go `func` value, printed by `%v` as an address) makes the JSON
encoding path of `LogToProcess` return an error instead of degrading. -/
theorem json_encoding_fails_on_unmarshalable_detail :
    logLineResult LogFormat.json "2024-01-15T10:30:45Z" "INFO" "api-server"
      "act" "msg" (some (Detail.other none "0x4711a0")) =
      Except.error "failed to marshal log entry" := rfl

/-- C4 as amended: in the readable/text format, encoding never fails —
unrepresentable detail values degrade to their best-effort `%v` text; in
the structured/JSON format, however, encoding succeeds exactly when the
detail value is marshalable, and an unmarshalable detail makes
`LogToProcess` return an error. -/
theorem text_encoding_total_json_encoding_fallible :
    ∀ (ts ln p a m : String) (d : Option Detail),
      isOkE (logLineResult LogFormat.text ts ln p a m d) = true ∧
      (isOkE (logLineResult LogFormat.json ts ln p a m d) = detailMarshalable d) := by
  intro ts ln p a m d
  constructor
  · cases d with
    | none => rfl
    | some dv => cases dv <;> rfl
  · cases d with
    | none => rfl
    | some dv =>
      cases dv with
      | str s => rfl
      | flatMap kvs => rfl
      | other jsonRepr verbRepr => cases jsonRepr <;> rfl

/-- Per-routing-key rotation/write bookkeeping of a cached `fileInfo`
(logger.go lines 48–52) under successful sequential `LogToProcess` calls:
`curName`/`size`/`partNum` mirror the `fileInfo` fields, `curEvents` lists
the byte counts appended to the current part, `prevParts` the closed
parts with their appended byte counts. -/
structure EntrySt where
  curName : String
  curEvents : List Int
  size : Int
  partNum : Nat
  prevParts : List (String × List Int)
deriving DecidableEq, Repr

/-- One successful `LogToProcess` call on an already-cached key
(logger.go lines 183–191 and 331–344): on the registry hit, rotate first
when `maxFileSize > 0 && size >= maxFileSize` (close part, increment
`partNum`, derive the new path via `rotateLogFile`, reset size to 0), then
append the encoded line and add its length to the tracked size. -/
def writeOne (maxFileSize : Int) (st : EntrySt) (lineLen : Int) : EntrySt :=
  if maxFileSize > 0 ∧ st.size ≥ maxFileSize then
    { curName := rotatePath st.curName (st.partNum + 1)
      curEvents := [lineLen]
      size := lineLen
      partNum := st.partNum + 1
      prevParts := st.prevParts ++ [(st.curName, st.curEvents)] }
  else
    { st with curEvents := st.curEvents ++ [lineLen], size := st.size + lineLen }

/-- Sequential successful writes to one routing key. -/
def runWrites (maxFileSize : Int) (st : EntrySt) (lens : List Int) : EntrySt :=
  lens.foldl (writeOne maxFileSize) st

/-- The entry created on first use of a routing key with no pre-existing
files on disk: part 1, `basePath + ".log"`, size 0. -/
def freshEntry (basePath : String) : EntrySt :=
  { curName := basePath ++ ".log", curEvents := [], size := 0, partNum := 1
    prevParts := [] }

/-- C5 (counterexample): with threshold 100 and five 30-byte lines, the
code does **not** leave part 1 with three events and put events 4–5 in
part 2 — the rotation check `size >= maxFileSize` sees 90 < 100 before
the fourth write, so the fourth event still lands in part 1. -/
theorem five_writes_claimed_split_false :
    ¬ ((runWrites 100 (freshEntry "logs/worker/jobs_2024-01-15")
          [30, 30, 30, 30, 30]).prevParts =
        [("logs/worker/jobs_2024-01-15.log", [30, 30, 30])] ∧
       (runWrites 100 (freshEntry "logs/worker/jobs_2024-01-15")
          [30, 30, 30, 30, 30]).curEvents = [30, 30]) := by
  decide

/-- C5 as amended: threshold 100, five 30-byte events on one fresh key
yield exactly two parts — part 1 holds the first **four** events
(120 bytes) and is untouched thereafter, rotation is triggered by the
**fifth** event before it is written, and part 2 holds event 5 alone. -/
theorem five_writes_actual_split :
    runWrites 100 (freshEntry "logs/worker/jobs_2024-01-15")
      [30, 30, 30, 30, 30] =
      { curName := "logs/worker/jobs_2024-01-15.2.log"
        curEvents := [30]
        size := 30
        partNum := 2
        prevParts := [("logs/worker/jobs_2024-01-15.log", [30, 30, 30, 30])] } := by
  decide

/-- The atomic steps of one `LogToProcess` call, in program order, for the
lock-discipline analysis (C1). -/
inductive Step where
  | filterCheck
  | lock
  | registryOp
  | unlock
  | encode
  | append
  | sizeUpdate
  | stderrMirror
deriving DecidableEq, Repr

/-- The step sequence of `LogToProcess` (logger.go lines 282–352) for a
call that passes / fails the minimum-level filter: the filter (line 284)
runs first; `getLogFile` locks the mutex on entry (line 172) and its
deferred unlock fires when it returns (line 173), covering lookup,
creation and rotation (lines 175–245); encoding (lines 294–329) and the
file write (line 333) run with no lock held; the size-bookkeeping update
re-acquires and releases the mutex (lines 338–344); the FATAL stderr
mirror (lines 347–349) runs last, unlocked. -/
def logToProcessSteps (passes fatal : Bool) : List Step :=
  if passes then
    [Step.filterCheck, Step.lock, Step.registryOp, Step.unlock, Step.encode,
     Step.append, Step.lock, Step.sizeUpdate, Step.unlock] ++
      (if fatal then [Step.stderrMirror] else [])
  else [Step.filterCheck]

/-- Mutex hold depth after executing a step sequence. -/
def lockDepth (tr : List Step) : Nat :=
  tr.foldl
    (fun d s =>
      match s with
      | Step.lock => d + 1
      | Step.unlock => d - 1
      | _ => d) 0

/-- Whether the mutex is held while the `i`-th step of `tr` executes. -/
def heldAt (tr : List Step) (i : Nat) : Bool :=
  lockDepth (tr.take i) != 0

/-- C1 (counterexample): in a filter-passing `LogToProcess` call the
append write (step index 5) and the encoding (index 4) execute with the
mutex **not** held, while the registry lookup/rotation (index 2) does hold
it — so steps 3–6 are not one continuous critical section and filtering is
not the only step outside it. -/
theorem append_write_outside_critical_section :
    (logToProcessSteps true false).get? 5 = some Step.append ∧
    heldAt (logToProcessSteps true false) 5 = false ∧
    (logToProcessSteps true false).get? 4 = some Step.encode ∧
    heldAt (logToProcessSteps true false) 4 = false ∧
    (logToProcessSteps true false).get? 2 = some Step.registryOp ∧
    heldAt (logToProcessSteps true false) 2 = true := by
  decide

/-- C1 as amended: per filter-passing call the registry lookup/rotation is
performed inside one critical section and the size-bookkeeping update
inside a second, separate critical section of the same mutex (the lock
depth returns to 0 in between, at the encode step); the append write,
the encoding and the level filter execute outside any critical section;
a filtered call performs only the filter check. -/
theorem two_disjoint_critical_sections :
    ∀ fatal : Bool,
      heldAt (logToProcessSteps true fatal) 2 = true ∧
      (logToProcessSteps true fatal).get? 2 = some Step.registryOp ∧
      heldAt (logToProcessSteps true fatal) 7 = true ∧
      (logToProcessSteps true fatal).get? 7 = some Step.sizeUpdate ∧
      heldAt (logToProcessSteps true fatal) 0 = false ∧
      heldAt (logToProcessSteps true fatal) 4 = false ∧
      heldAt (logToProcessSteps true fatal) 5 = false ∧
      (logToProcessSteps true fatal).get? 5 = some Step.append ∧
      lockDepth ((logToProcessSteps true fatal).take 4) = 0 ∧
      lockDepth (logToProcessSteps true fatal) = 0 ∧
      logToProcessSteps false fatal = [Step.filterCheck] := by
  intro fatal
  cases fatal <;> decide

/-- `(s ++ t).data = s.data ++ t.data` (definitional for Go-style string
concatenation). -/
theorem strData_append (s t : String) : (s ++ t).data = s.data ++ t.data := rfl

/-- String length as character count. -/
def strLen (s : String) : Nat := s.data.length

theorem strLen_append (s t : String) : strLen (s ++ t) = strLen s + strLen t := by
  simp [strLen, strData_append]

theorem slashJoin_ne_empty (s t : String) : s ++ "/" ++ t ≠ "" := by
  intro h
  have h3 := congrArg strLen h
  simp only [strLen_append] at h3
  have e1 : strLen "/" = 1 := rfl
  have e0 : strLen "" = 0 := rfl
  rw [e1, e0] at h3
  omega

theorem slashJoin_ne_underscored (b p d : String) :
    b ++ "/" ++ p ++ "/" ++ d ≠ b ++ "/" ++ p ++ "/_" ++ d := by
  intro h
  have h3 := congrArg strLen h
  simp only [strLen_append] at h3
  have e1 : strLen "/" = 1 := rfl
  have e2 : strLen "/_" = 2 := rfl
  rw [e1, e2] at h3
  omega

/-- C8: with an empty category the base path is derived from the process
directory and the date alone — `Join(processLogDir, currentDate)` — so the
resulting log file is `<base>/<process>/<date>.log`, with no `_` separator
artifact (`<base>/<process>/_<date>.log` is a different string). -/
theorem empty_category_path (b p d : String)
    (hb : b ≠ "") (hp : p ≠ "") (hd : d ≠ "") :
    basePathFor b p "" d = b ++ "/" ++ p ++ "/" ++ d ∧
    (getLogFileMissFilename (fsStat []) 0 (basePathFor b p "" d)).1 =
      b ++ "/" ++ p ++ "/" ++ d ++ ".log" ∧
    basePathFor b p "" d ≠ b ++ "/" ++ p ++ "/_" ++ d := by
  have hbp : goJoin b p = b ++ "/" ++ p := by simp [goJoin, hb, hp]
  have hne : b ++ "/" ++ p ≠ "" := slashJoin_ne_empty b p
  have h1 : basePathFor b p "" d = b ++ "/" ++ p ++ "/" ++ d := by
    have h0 : basePathFor b p "" d = goJoin (goJoin b p) d := by
      simp [basePathFor]
    rw [h0, hbp]
    simp [goJoin, hne, hd]
  refine ⟨h1, ?_, ?_⟩
  · rw [h1]
    simp [getLogFileMissFilename]
  · rw [h1]
    exact slashJoin_ne_underscored b p d

/-- Witness for C8 on the spec's scenario: process "scheduler", empty
category, date 2024-01-15. -/
theorem empty_category_path_witness :
    basePathFor "logs" "scheduler" "" "2024-01-15" =
      "logs" ++ "/" ++ "scheduler" ++ "/" ++ "2024-01-15" ∧
    (getLogFileMissFilename (fsStat []) 0
        (basePathFor "logs" "scheduler" "" "2024-01-15")).1 =
      "logs" ++ "/" ++ "scheduler" ++ "/" ++ "2024-01-15" ++ ".log" ∧
    basePathFor "logs" "scheduler" "" "2024-01-15" ≠
      "logs" ++ "/" ++ "scheduler" ++ "/_" ++ "2024-01-15" :=
  empty_category_path "logs" "scheduler" "2024-01-15"
    (by decide) (by decide) (by decide)

/-- A registry entry, mirroring `fileInfo` (logger.go lines 48–52): the
open handle is identified by its file name. -/
structure Entry where
  fileName : String
  size : Int
  partNum : Nat
deriving DecidableEq, Repr

/-- The modelled filesystem world: existing files with sizes, existing
directories, and the fault injections the claims need — paths whose
`os.OpenFile` fails and paths whose post-open `Stat` fails.
(`os.MkdirAll` failure is not modelled; no claim depends on it.) -/
structure World where
  files : List (String × Int)
  dirs : List String
  openFails : List String
  statFails : List String
deriving DecidableEq, Repr

/-- The `Logger` configuration fields (logger.go lines 55–62): `minLevel`
as Go `LogLevel` (`Int`), `maxFileSize` in bytes (0 = rotation disabled). -/
structure LoggerCfg where
  baseLogDir : String
  minLevel : Int
  format : LogFormat
  maxFileSize : Int
deriving DecidableEq, Repr

/-- The mutable state a `Logger` acts on: the world plus the
`logFiles map[string]*fileInfo` registry. -/
structure LState where
  world : World
  registry : List (String × Entry)
deriving DecidableEq, Repr

/-- Lookup in the `logFiles` registry. -/
def regLookup (reg : List (String × Entry)) (k : String) : Option Entry :=
  match reg with
  | [] => none
  | (q, e) :: rest => if q = k then some e else regLookup rest k

/-- Insert-or-overwrite in the `logFiles` registry (both `map` assignment
and in-place `*fileInfo` mutation land here). -/
def regSet (reg : List (String × Entry)) (k : String) (e : Entry) :
    List (String × Entry) :=
  match reg with
  | [] => [(k, e)]
  | (q, e0) :: rest =>
    if q = k then (k, e) :: rest else (q, e0) :: regSet rest k e

/-- `os.MkdirAll` (idempotent). -/
def addDir (dirs : List String) (d : String) : List String :=
  if d ∈ dirs then dirs else dirs ++ [d]

/-- `os.OpenFile(..., O_CREATE|O_WRONLY|O_APPEND, 0644)` effect on the
filesystem: creates the file empty when absent, preserves it otherwise. -/
def ensureFile (files : List (String × Int)) (p : String) :
    List (String × Int) :=
  match fsStat files p with
  | some _ => files
  | none => setFile files p 0

/-- The registry key (logger.go line 180):
`filepath.Join(processDir, category, currentDate)` — empty components are
dropped by `Join`. -/
def fileKeyOf (processDir category date : String) : String :=
  goJoin (goJoin processDir category) date

/-- `getLogFile` (logger.go lines 171–246), including `rotateLogFile`
(lines 146–168) inlined on the hit path. On a hit with rotation due,
the source increments `info.partNum` through the shared pointer *before*
attempting to open the new path, so a failed rotated-open leaves the entry
with the incremented part number but the old name and size. On a miss:
create the process directory, derive the base path, select
filename/part via the probe, then open; an open failure or a stat failure
returns the error before anything is cached in the registry. -/
def getLogFile (cfg : LoggerCfg) (st : LState)
    (processDir category date : String) : Except String String × LState :=
  let fileKey := fileKeyOf processDir category date
  match regLookup st.registry fileKey with
  | some info =>
    if cfg.maxFileSize > 0 ∧ info.size ≥ cfg.maxFileSize then
      let newPart := info.partNum + 1
      let newPath := rotatePath info.fileName newPart
      if newPath ∈ st.world.openFails then
        let e1 : Entry :=
          { fileName := info.fileName, size := info.size, partNum := newPart }
        (Except.error ("failed to create rotated log file " ++ newPath),
         { st with registry := regSet st.registry fileKey e1 })
      else
        let e2 : Entry := { fileName := newPath, size := 0, partNum := newPart }
        (Except.ok newPath,
         { world := { st.world with files := ensureFile st.world.files newPath },
           registry := regSet st.registry fileKey e2 })
    else (Except.ok info.fileName, st)
  | none =>
    let processLogDir := goJoin cfg.baseLogDir processDir
    let dirs := addDir st.world.dirs processLogDir
    let basePath := basePathFor cfg.baseLogDir processDir category date
    let pf := getLogFileMissFilename (fsStat st.world.files) cfg.maxFileSize basePath
    if pf.1 ∈ st.world.openFails then
      (Except.error ("failed to open log file " ++ pf.1),
       { st with world := { st.world with dirs := dirs } })
    else
      let files := ensureFile st.world.files pf.1
      if pf.1 ∈ st.world.statFails then
        (Except.error ("failed to get file stats for " ++ pf.1),
         { st with world := { st.world with files := files, dirs := dirs } })
      else
        let e3 : Entry :=
          { fileName := pf.1, size := (fsStat files pf.1).getD 0,
            partNum := pf.2 }
        (Except.ok pf.1,
         { world := { st.world with files := files, dirs := dirs },
           registry := regSet st.registry fileKey e3 })

/-- `LogToProcess` (logger.go lines 282–352) as a state transformer.
`timestamp`/`date` stand for the wall-clock reads (the size-update block
re-derives the key with the same date, line 339–340); `writeFails` injects
a failure of the `file.Write` call (line 333). A Go runtime panic (from
`level.String()` on an undefined level) is modelled as `none`. On success
the written byte count — including the appended newline — is added to the
file and, when the key is still cached, to the entry's tracked size.
The FATAL stderr mirror (lines 347–349) has no modelled state. -/
def logToProcess (cfg : LoggerCfg) (st : LState) (level : Int)
    (processDir category action message : String) (details : Option Detail)
    (timestamp date : String) (writeFails : Bool) :
    Option (Except String Unit × LState) :=
  if level < cfg.minLevel then some (Except.ok Unit.unit, st)
  else
    match getLogFile cfg st processDir category date with
    | (Except.error e, st1) => some (Except.error e, st1)
    | (Except.ok fname, st1) =>
      match LogLevelString level with
      | none => none
      | some levelName =>
        match logLineResult cfg.format timestamp levelName processDir action
            message details with
        | Except.error e => some (Except.error e, st1)
        | Except.ok line =>
          if writeFails then
            some (Except.error "failed to write to log file", st1)
          else
            let n : Int := Int.ofNat (String.utf8ByteSize line)
            let files :=
              match fsStat st1.world.files fname with
              | some sz => setFile st1.world.files fname (sz + n)
              | none => setFile st1.world.files fname n
            let registry :=
              match regLookup st1.registry (fileKeyOf processDir category date) with
              | some info =>
                regSet st1.registry (fileKeyOf processDir category date)
                  ({ info with size := info.size + n })
              | none => st1.registry
            some (Except.ok Unit.unit,
              { world := { st1.world with files := files }, registry := registry })

/-- C6: a call whose level is strictly below the configured minimum
returns success and is a true no-op — the filter (logger.go line 284)
returns `nil` before any directory, file, registry or size effect, for
every state, key and payload. -/
theorem below_min_level_is_noop (cfg : LoggerCfg) (st : LState) (level : Int)
    (processDir category action message : String) (details : Option Detail)
    (timestamp date : String) (writeFails : Bool)
    (h : level < cfg.minLevel) :
    logToProcess cfg st level processDir category action message details
      timestamp date writeFails = some (Except.ok Unit.unit, st) := by
  simp [logToProcess, h]

/-- Witness for C6: DEBUG (0) under minimum WARN (2) on an empty state. -/
theorem below_min_level_is_noop_witness :
    ((0 : Int) <
      LoggerCfg.minLevel
        { baseLogDir := "logs", minLevel := 2, format := LogFormat.text,
          maxFileSize := 0 }) ∧
    logToProcess
      { baseLogDir := "logs", minLevel := 2, format := LogFormat.text,
        maxFileSize := 0 }
      { world := { files := [], dirs := [], openFails := [], statFails := [] },
        registry := [] }
      0 "api" "" "act" "msg" none "ts" "2024-01-15" false =
      some (Except.ok Unit.unit,
        { world := { files := [], dirs := [], openFails := [], statFails := [] },
          registry := [] }) :=
  ⟨by decide,
   below_min_level_is_noop _ _ 0 "api" "" "act" "msg" none "ts" "2024-01-15"
     false (by decide)⟩

/-- C7: failures are atomic w.r.t. registry state. (1) If resolution of a
not-yet-cached routing key returns an error — the open failing or the
post-open stat failing — the registry is left exactly as it was, so a
later write retries from scratch. (2) If the append write fails after a
handle was obtained, `LogToProcess` surfaces the error and leaves the
state exactly as `getLogFile` produced it: no size credit is added for
the failed write. -/
theorem failure_atomicity :
    (∀ (cfg : LoggerCfg) (st : LState) (processDir category date : String),
      regLookup st.registry (fileKeyOf processDir category date) = none →
      ∀ e : String,
        (getLogFile cfg st processDir category date).1 = Except.error e →
        ((getLogFile cfg st processDir category date).2).registry =
          st.registry) ∧
    (∀ (cfg : LoggerCfg) (st : LState) (level : Int)
        (processDir category action message : String) (details : Option Detail)
        (timestamp date : String) (fname : String) (st1 : LState)
        (levelName line : String),
      ¬ level < cfg.minLevel →
      getLogFile cfg st processDir category date = (Except.ok fname, st1) →
      LogLevelString level = some levelName →
      logLineResult cfg.format timestamp levelName processDir action message
        details = Except.ok line →
      logToProcess cfg st level processDir category action message details
        timestamp date true =
        some (Except.error "failed to write to log file", st1)) := by
  constructor
  · intro cfg st processDir category date hmiss e
    simp only [getLogFile, hmiss]
    split
    · intro _
      rfl
    · split
      · intro _
        rfl
      · intro h
        simp at h
  · intro cfg st level processDir category action message details timestamp
      date fname st1 levelName line hlev hget hname hline
    simp only [logToProcess, if_neg hlev, hget, hname, hline, if_pos]

/-- A configuration with rotation disabled, used by concrete witnesses. -/
def cfgNoRot : LoggerCfg :=
  { baseLogDir := "logs", minLevel := 0, format := LogFormat.text,
    maxFileSize := 0 }

/-- Empty state: no files, no directories, no injected faults. -/
def stEmpty : LState :=
  { world := { files := [], dirs := [], openFails := [], statFails := [] },
    registry := [] }

/-- State in which opening `logs/api/2024-01-15.log` fails. -/
def stOpenFail : LState :=
  { world := { files := [], dirs := [], openFails := ["logs/api/2024-01-15.log"],
               statFails := [] },
    registry := [] }

/-- The state `getLogFile` produces from `stEmpty` for the routing key
(api, "", 2024-01-15) under `cfgNoRot`. -/
def stResolved : LState :=
  { world := { files := [("logs/api/2024-01-15.log", 0)], dirs := ["logs/api"],
               openFails := [], statFails := [] },
    registry := [("api/2024-01-15",
      { fileName := "logs/api/2024-01-15.log", size := 0, partNum := 1 })] }

/-- Witness for C7: a failed first open leaves the registry untouched, and
a failed append write surfaces the error with the post-resolve state (no
size credit). -/
theorem failure_atomicity_witness :
    ((getLogFile cfgNoRot stOpenFail "api" "" "2024-01-15").2).registry =
      stOpenFail.registry ∧
    logToProcess cfgNoRot stEmpty 1 "api" "" "act" "msg" none "ts"
      "2024-01-15" true =
      some (Except.error "failed to write to log file", stResolved) :=
  ⟨failure_atomicity.1 cfgNoRot stOpenFail "api" "" "2024-01-15" rfl
      "failed to open log file logs/api/2024-01-15.log" rfl,
   failure_atomicity.2 cfgNoRot stEmpty 1 "api" "" "act" "msg" none "ts"
      "2024-01-15" "logs/api/2024-01-15.log" stResolved "INFO"
      "[ts] INFO | api | act | msg\n" (by decide) rfl rfl rfl⟩

/-- State of the package-level default-instance guard (logger.go lines
64–67): the `sync.Once` flag and the stored `defaultLogger` pointer,
abstracted as an optional instance identity (`none` = `nil`). -/
structure OnceState where
  done : Bool
  stored : Option Nat
deriving DecidableEq, Repr

/-- `InitDefaultLogger` / `InitDefaultLoggerWithRotation` (logger.go lines
70–85). Both guard construction with the *same* package-level `sync.Once`,
so one model function covers both; `newResult` stands for what
`NewLogger(...)` / `NewLoggerWithRotation(...)` would return for this
call's arguments. `once.Do` runs the closure only when not yet done; on
later calls the local `err` stays nil and the stored pointer — whatever
the first call left there, possibly nil — is returned. -/
def initDefault (st : OnceState) (newResult : Except String Nat) :
    (Option Nat × Option String) × OnceState :=
  if st.done then ((st.stored, none), st)
  else
    match newResult with
    | Except.ok l => ((some l, none), { done := true, stored := some l })
    | Except.error e => ((none, some e), { done := true, stored := none })

/-- C10: once the `sync.Once` has fired, every further call to either init
function returns the stored instance with a nil error, ignoring its own
arguments and leaving the guard state unchanged; in particular, after a
failed first initialization (stored instance nil) every later call
returns `(nil, nil)`, reporting neither the original nor a new error. -/
theorem init_once_argument_insensitive (st : OnceState)
    (r : Except String Nat) (h : st.done = true) :
    initDefault st r = ((st.stored, none), st) ∧
    (st.stored = none → initDefault st r = ((none, none), st)) := by
  constructor
  · simp [initDefault, h]
  · intro h2
    simp [initDefault, h, h2]

/-- Witness for C10: after a failed first init (`done`, `stored = nil`), a
later call with arguments that would construct instance 7 still returns
`(nil, nil)`. -/
theorem init_once_argument_insensitive_witness :
    OnceState.done { done := true, stored := none } = true ∧
    initDefault { done := true, stored := none } (Except.ok 7) =
      ((none, none), { done := true, stored := none }) :=
  ⟨rfl,
   (init_once_argument_insensitive { done := true, stored := none }
      (Except.ok 7) rfl).2 rfl⟩

end GoLogger
